import Mathlib

/-!
Verification of the request-security middleware stack of the CloudParallax
parallax repository: CSRF double-submit validation, session store with lazy
expiry, token-bucket rate limiting and CORS origin checking, shallowly
embedded from the Go sources (internal/adapters/http/middleware).
-/

namespace Parallax

/-! ## Byte strings

Go strings are byte sequences; tokens are modelled as lists of byte values. -/

abbrev Bytes := List Nat

/-! ## Base64 URL decoding

Model of Go `encoding/base64` `URLEncoding.DecodeString`: alphabet
A-Z a-z 0-9 - _, padding character `=`, carriage returns and newlines
skipped, decoding in four-character quanta, padding only at the end,
unused trailing bits ignored (the encoding is not strict). -/

/-- Position of a byte in the base64url alphabet, `none` for bytes outside it. -/
def b64Index (b : Nat) : Option Nat :=
  if 65 ≤ b ∧ b ≤ 90 then some (b - 65)
  else if 97 ≤ b ∧ b ≤ 122 then some (b - 97 + 26)
  else if 48 ≤ b ∧ b ≤ 57 then some (b - 48 + 52)
  else if b = 45 then some 62
  else if b = 95 then some 63
  else none

/-- Decode base64 input in quanta of four characters.  A final quantum may end
in one (`xxx=`, two output bytes) or two (`xx==`, one output byte) padding
characters; padding anywhere else, a dangling partial quantum, or a byte
outside the alphabet is an error, as in Go's `decodeQuantum`. -/
def b64DecodeQuanta : Bytes → Option Bytes
  | [] => some []
  | c0 :: c1 :: c2 :: c3 :: rest =>
    match b64Index c0, b64Index c1 with
    | some v0, some v1 =>
      (match b64Index c2, b64Index c3 with
        | some v2, some v3 =>
          (fun ds => (v0 * 4 + v1 / 16) :: ((v1 % 16) * 16 + v2 / 4)
              :: ((v2 % 4) * 64 + v3) :: ds) <$> b64DecodeQuanta rest
        | some v2, none =>
          if c3 = 61 ∧ rest = [] then
            some [v0 * 4 + v1 / 16, (v1 % 16) * 16 + v2 / 4]
          else none
        | none, _ =>
          if c2 = 61 ∧ c3 = 61 ∧ rest = [] then some [v0 * 4 + v1 / 16]
          else none)
    | _, _ => none
  | _ => none

/-- Bytes 10 (`\n`) and 13 (`\r`) are skipped by the Go decoder. -/
def stripNewlineBytes (s : Bytes) : Bytes :=
  s.filter (fun b => !(b == 10 || b == 13))

/-- Model of `base64.URLEncoding.DecodeString`. -/
def base64URLDecode (s : Bytes) : Option Bytes :=
  b64DecodeQuanta (stripNewlineBytes s)

/-! ## CSRF middleware (src/unnamed/part_015, CSRF section) -/

/-- Model of `isValidToken`: a token is well formed iff it is non-empty,
decodes as base64url, and the decoded form has at least 32 bytes. -/
def isValidToken (token : Bytes) : Bool :=
  if token = [] then false
  else
    match base64URLDecode token with
    | none => false
    | some decoded => decide (32 ≤ decoded.length)

/-- The bitwise or of the xors of corresponding bytes, as accumulated by the
loop inside Go `crypto/subtle.ConstantTimeCompare`. -/
def xorOrAll : Bytes → Bytes → Nat
  | [], _ => 0
  | _, [] => 0
  | a :: as, b :: bs => (a ^^^ b) ||| xorOrAll as bs

/-- Model of `subtle.ConstantTimeCompare`: 0 when the lengths differ,
otherwise 1 exactly when every xor of corresponding bytes is zero. -/
def constantTimeCompare (x y : Bytes) : Nat :=
  if x.length = y.length then (if xorOrAll x y = 0 then 1 else 0) else 0

/-- Core of `validateCSRFToken` once the cookie token and the client-supplied
token have been extracted: reject an empty cookie token, then an empty client
token, then a malformed token on either side, and finally compare the two in
constant time. -/
def validateTokenPair (cookieToken headerToken : Bytes) : Bool :=
  if cookieToken = [] then false
  else if headerToken = [] then false
  else if !(isValidToken cookieToken) || !(isValidToken headerToken) then false
  else decide (constantTimeCompare cookieToken headerToken = 1)

/-- Configuration fields of `CSRFMiddleware` used by validation. -/
structure CSRFConfig where
  tokenLookup : String
  cookieName : String
  headerName : String

/-- Model of `DefaultCSRFConfig` (validation-relevant fields). -/
def defaultCSRFConfig : CSRFConfig :=
  { tokenLookup := "header:X-CSRF-Token"
    cookieName := "csrf_token"
    headerName := "X-CSRF-Token" }

/-- Request data read by the CSRF middleware: cookie values, header values and
form values, each keyed by name, with the empty byte string meaning absent
(Go `Cookies`, `Get` and `FormValue` all return `""` for a missing entry). -/
structure CSRFRequest where
  cookies : String → Bytes
  headers : String → Bytes
  formValues : String → Bytes

/-- Token extraction of `validateCSRFToken`: the configured header when
`tokenLookup` is `"header:" + headerName`, otherwise the `_token` form field. -/
def clientSuppliedToken (cfg : CSRFConfig) (req : CSRFRequest) : Bytes :=
  if cfg.tokenLookup = "header:" ++ cfg.headerName then req.headers cfg.headerName
  else req.formValues "_token"

/-- Model of `validateCSRFToken`. -/
def validateCSRFToken (cfg : CSRFConfig) (req : CSRFRequest) : Bool :=
  validateTokenPair (req.cookies cfg.cookieName) (clientSuppliedToken cfg req)

/-- Model of `isSafeMethod`. -/
def isSafeMethod (method : String) : Bool :=
  method == "GET" || method == "HEAD" || method == "OPTIONS"

/-- Observable outcome of the CSRF handler: delegate to the token-issuing path
(safe methods), forward to the downstream handler, or reply immediately with
an error status and message so the downstream handler is never invoked. -/
inductive CSRFResult where
  | issueToken
  | forward
  | reject (status : Nat) (message : String)
deriving DecidableEq

/-- Model of the `Handler` closure of `CSRFMiddleware`: safe methods go to
`setCSRFToken`; unsafe methods forward exactly when `validateCSRFToken`
succeeds and otherwise answer 403 with a CSRF mismatch body. -/
def csrfHandler (cfg : CSRFConfig) (method : String) (req : CSRFRequest) : CSRFResult :=
  if isSafeMethod method then .issueToken
  else if validateCSRFToken cfg req then .forward
  else .reject 403 "CSRF token mismatch"

/-! ## Session store and authentication middleware
(src/internal/adapters/http/middleware/auth.go)

Times are taken from a monotonic clock and modelled as naturals;
Go `time.Time.After` on such values is strict comparison. -/

/-- Model of the `Session` struct; the open attribute bag is a string map. -/
structure Session where
  id : String
  userID : String
  createdAt : Nat
  expiresAt : Nat
  data : List (String × String)
deriving DecidableEq

/-- The session map of `SessionStore`, as an association list. -/
abbrev SessionMap := List (String × Session)

/-- Map lookup `a.store.sessions[sessionID]`. -/
def lookupSession : SessionMap → String → Option Session
  | [], _ => none
  | (k, s) :: rest, id => if k = id then some s else lookupSession rest id

/-- Map removal `delete(a.store.sessions, sessionID)`. -/
def removeSession (m : SessionMap) (id : String) : SessionMap :=
  m.filter (fun e => !(e.1 == id))

/-- Model of `GetSession`: look the id up; an absent id yields `none`; a hit
whose expiry lies strictly before `now` (`time.Now().After(session.ExpiresAt)`)
is deleted and reported absent; otherwise the session is returned.  The second
component is the session map after the call. -/
def getSession (m : SessionMap) (now : Nat) (id : String) : Option Session × SessionMap :=
  match lookupSession m id with
  | none => (none, m)
  | some s => if s.expiresAt < now then (none, removeSession m id) else (some s, m)

/-- Model of `CleanupExpiredSessions`: drop every session with
`now.After(session.ExpiresAt)`. -/
def cleanupExpiredSessions (m : SessionMap) (now : Nat) : SessionMap :=
  m.filter (fun e => !(decide (e.2.expiresAt < now)))

/-- Observable outcome of the authentication middleware handlers: an immediate
error reply, or forwarding with the values stored in the request context. -/
inductive AuthOutcome where
  | reject (status : Nat) (message : String)
  | proceed (session : Session) (userID : String) (authenticated : Bool)
deriving DecidableEq

/-- Model of the `RequireAuth` handler: an empty cookie is rejected 401 before
any session lookup; a cookie whose lookup fails is rejected 401; a valid
session is attached to the context (session, user id, authenticated flag) and
the request forwarded.  The second component is the session map afterwards. -/
def requireAuth (m : SessionMap) (now : Nat) (cookieVal : String) :
    AuthOutcome × SessionMap :=
  if cookieVal = "" then (.reject 401 "Authentication required", m)
  else
    let res := getSession m now cookieVal
    match res.1 with
    | none => (.reject 401 "Invalid or expired session", res.2)
    | some s => (.proceed s s.userID true, res.2)

/-! ### Lock traces

The claimed reader/writer lock discipline is checked on the sequence of lock
and map operations each store function performs, read off the source. -/

/-- Lock and map-write events of the session store. -/
inductive LockEvent where
  | rlock | runlock | wlock | wunlock | mapDelete
deriving DecidableEq

/-- Lock trace of `GetSession` as written: `RLock` on entry, `RUnlock` deferred
to exit, and — on the expired path — the `delete` between the two, with no
write-lock acquisition anywhere. -/
def getSessionLockTrace (m : SessionMap) (now : Nat) (id : String) : List LockEvent :=
  match lookupSession m id with
  | none => [.rlock, .runlock]
  | some s =>
    if s.expiresAt < now then [.rlock, .mapDelete, .runlock]
    else [.rlock, .runlock]

/-- Lock trace of `CreateSession` and `DeleteSession`: the write lock is held
for the duration of the map mutation. -/
def writeLockedMutationTrace : List LockEvent :=
  [.wlock, .mapDelete, .wunlock]

/-- Whether some `mapDelete` in the trace happens while no write lock but at
least one read lock is held; `r` and `w` count the locks currently held. -/
def deleteWithoutWriteLock : List LockEvent → Nat → Nat → Bool
  | [], _, _ => false
  | .rlock :: rest, r, w => deleteWithoutWriteLock rest (r + 1) w
  | .runlock :: rest, r, w => deleteWithoutWriteLock rest (r - 1) w
  | .wlock :: rest, r, w => deleteWithoutWriteLock rest r (w + 1)
  | .wunlock :: rest, r, w => deleteWithoutWriteLock rest r (w - 1)
  | .mapDelete :: rest, r, w =>
    (w == 0 && !(r == 0)) || deleteWithoutWriteLock rest r w

/-! ## Rate limiting middleware (src/unnamed/part_015, rate-limit section) -/

/-- Nanoseconds per minute; `int(elapsed.Minutes())` truncates the elapsed
nanoseconds to whole minutes. -/
def nsPerMinute : Nat := 60000000000

/-- Model of the `RateLimiter` struct (Go `int` fields as integers, the
`lastRefill` instant as monotonic nanoseconds). -/
structure RateLimiter where
  tokens : Int
  maxTokens : Int
  refillRate : Int
  lastRefill : Nat
deriving DecidableEq

/-- The refill amount computed inside `Allow`:
`int(elapsed.Minutes()) * rl.refillRate` for `elapsed = now - lastRefill`. -/
def refillAmount (rl : RateLimiter) (now : Nat) : Int :=
  (((now - rl.lastRefill) / nsPerMinute : Nat) : Int) * rl.refillRate

/-- Model of `Allow`: add `int(elapsed.Minutes()) * refillRate` tokens capped
at `maxTokens` and advance `lastRefill`, but only when that amount is
positive; then consume one token when any is available. -/
def RateLimiter.allow (rl : RateLimiter) (now : Nat) : Bool × RateLimiter :=
  let tokensToAdd : Int := refillAmount rl now
  let rl1 :=
    if 0 < tokensToAdd then
      { rl with tokens := min rl.maxTokens (rl.tokens + tokensToAdd), lastRefill := now }
    else rl
  if 0 < rl1.tokens then (true, { rl1 with tokens := rl1.tokens - 1 })
  else (false, rl1)

/-- State of `RateLimitMiddleware`: the key-indexed limiter map and the
configured capacity and window. -/
structure RateLimitMiddleware where
  limiters : List (String × RateLimiter)
  maxRequests : Int
  window : Nat

/-- Map lookup `r.limiters[key]`. -/
def lookupLimiter : List (String × RateLimiter) → String → Option RateLimiter
  | [], _ => none
  | (k, l) :: rest, key => if k = key then some l else lookupLimiter rest key

/-- Model of `getRateLimiter`: return the existing limiter for `key`, or
lazily create one with a full bucket (`tokens = maxTokens = refillRate =
maxRequests`, `lastRefill = now`) and insert it. -/
def getRateLimiter (r : RateLimitMiddleware) (key : String) (now : Nat) :
    RateLimiter × RateLimitMiddleware :=
  match lookupLimiter r.limiters key with
  | some l => (l, r)
  | none =>
    let l : RateLimiter := ⟨r.maxRequests, r.maxRequests, r.maxRequests, now⟩
    (l, { r with limiters := (key, l) :: r.limiters })

/-- Run a sequence of `Allow` calls at the given instants, collecting the
results and the final limiter state. -/
def allowSeq : RateLimiter → List Nat → List Bool × RateLimiter
  | rl, [] => ([], rl)
  | rl, t :: ts =>
    let p := rl.allow t
    let q := allowSeq p.2 ts
    (p.1 :: q.1, q.2)

/-! ## CORS middleware (src/unnamed/part_014) -/

/-- Origin strings as character lists, so that the suffix matching of the
wildcard check can be reasoned about positionally. -/
abbrev GoStr := List Char

/-- Configuration fields of `CORSMiddleware` used by the origin check. -/
structure CORSConfig where
  allowOrigins : List GoStr
  allowCredentials : Bool

/-- Model of `isOriginAllowed`: an empty origin is always allowed; otherwise
some configured entry must be the literal `*`, equal the origin exactly, or
start with `*.` and have the remainder be a plain suffix of the origin
(`strings.HasSuffix` after `strings.TrimPrefix` of the leading two bytes). -/
def isOriginAllowed (cfg : CORSConfig) (origin : GoStr) : Bool :=
  if origin = [] then true
  else
    cfg.allowOrigins.any fun allowed =>
      allowed == ['*'] || allowed == origin ||
        (List.isPrefixOf ['*', '.'] allowed && List.isSuffixOf (allowed.drop 2) origin)

/-- Model of `setAllowOriginHeader`, returning the value stored in
`Access-Control-Allow-Origin` (`none` when the header is left unset).  With
credentials the origin is echoed exactly when non-empty and allowed; without
credentials a configured `*` wins, otherwise an allowed origin is echoed. -/
def setAllowOriginHeader (cfg : CORSConfig) (origin : GoStr) : Option GoStr :=
  if cfg.allowCredentials then
    if origin != [] && isOriginAllowed cfg origin then some origin else none
  else
    if cfg.allowOrigins.contains ['*'] then some ['*']
    else if origin != [] && isOriginAllowed cfg origin then some origin else none

/-- Observable outcome of the CORS handlers together with the
`Access-Control-Allow-Origin` value each produced. -/
inductive CORSResult where
  | forward (acao : Option GoStr)
  | preflightOk (acao : Option GoStr)
  | reject (status : Nat) (acao : Option GoStr)
deriving DecidableEq

/-- Model of `handleActualRequest`: a non-empty disallowed origin is rejected
403 before any header is written; otherwise the allow-origin header is set for
non-empty origins and the request forwarded. -/
def handleActualRequest (cfg : CORSConfig) (origin : GoStr) : CORSResult :=
  if origin != [] && !(isOriginAllowed cfg origin) then .reject 403 none
  else .forward (if origin != [] then setAllowOriginHeader cfg origin else none)

/-- Model of `handlePreflight`: a disallowed origin is rejected 403 before any
header is written; otherwise the allow-origin header is set and 204 returned. -/
def handlePreflight (cfg : CORSConfig) (origin : GoStr) : CORSResult :=
  if !(isOriginAllowed cfg origin) then .reject 403 none
  else .preflightOk (setAllowOriginHeader cfg origin)

/-! ## Helper lemmas -/

/-- An or of naturals is zero only when both sides are. -/
theorem or_eq_zero_parts {a b : Nat} (h : a ||| b = 0) : a = 0 ∧ b = 0 := by
  constructor
  · apply Nat.eq_of_testBit_eq
    intro i
    have h2 := congrArg (fun n => n.testBit i) h
    simp [Nat.testBit_or] at h2
    simp [h2.1]
  · apply Nat.eq_of_testBit_eq
    intro i
    have h2 := congrArg (fun n => n.testBit i) h
    simp [Nat.testBit_or] at h2
    simp [h2.2]

/-- For equal lengths, the accumulated or of xors vanishes exactly on equal
byte strings. -/
theorem xorOrAll_eq_zero {x y : Bytes} (h : x.length = y.length) :
    xorOrAll x y = 0 ↔ x = y := by
  induction x generalizing y with
  | nil =>
    cases y with
    | nil => simp [xorOrAll]
    | cons b bs => simp at h
  | cons a as ih =>
    cases y with
    | nil => simp at h
    | cons b bs =>
      simp only [List.length_cons] at h
      have hlen : as.length = bs.length := by omega
      constructor
      · intro h0
        have hp := or_eq_zero_parts (show (a ^^^ b) ||| xorOrAll as bs = 0 from h0)
        have ha : a = b := Nat.xor_eq_zero.mp hp.1
        have has : as = bs := (ih hlen).mp hp.2
        rw [ha, has]
      · intro he
        obtain ⟨rfl, rfl⟩ : a = b ∧ as = bs := by
          injection he with h1 h2
          exact ⟨h1, h2⟩
        show (a ^^^ a) ||| xorOrAll as as = 0
        simp [Nat.xor_self, (ih rfl).mpr rfl]

/-- The constant-time comparison returns 1 exactly on equal byte strings. -/
theorem constantTimeCompare_eq_one_iff (x y : Bytes) :
    constantTimeCompare x y = 1 ↔ x = y := by
  unfold constantTimeCompare
  by_cases h : x.length = y.length
  · rw [if_pos h]
    by_cases h0 : xorOrAll x y = 0
    · rw [if_pos h0]
      exact iff_of_true rfl ((xorOrAll_eq_zero h).mp h0)
    · rw [if_neg h0]
      constructor
      · intro h1
        exact absurd h1 (by decide)
      · intro he
        exact absurd ((xorOrAll_eq_zero h).mpr he) h0
  · rw [if_neg h]
    constructor
    · intro h1
      exact absurd h1 (by decide)
    · intro he
      exact absurd (congrArg List.length he) h

/-- Characterisation of the validation core: accept exactly when both tokens
are well formed and equal. -/
theorem validateTokenPair_eq_true_iff (a b : Bytes) :
    validateTokenPair a b = true ↔
      (isValidToken a = true ∧ isValidToken b = true ∧ a = b) := by
  unfold validateTokenPair
  by_cases ha : a = []
  · simp [ha, isValidToken]
  · rw [if_neg ha]
    by_cases hb : b = []
    · simp [hb, isValidToken]
    · rw [if_neg hb]
      by_cases hva : isValidToken a
      · by_cases hvb : isValidToken b
        · simp [hva, hvb, constantTimeCompare_eq_one_iff]
        · simp [hva, hvb]
      · simp [hva]

/-! ## Claims about the CSRF middleware -/

/-- C1: for every unsafe-method request, the CSRF handler forwards iff the
cookie token and the client-supplied token (configured header, or the
`_token` form field under a form lookup configuration) are both well formed
and equal under the constant-time comparison; otherwise it answers 403 with
the CSRF-mismatch body, never reaching the downstream handler. -/
theorem csrf_unsafe_request_validation (cfg : CSRFConfig) (method : String)
    (req : CSRFRequest) (h : isSafeMethod method = false) :
    (csrfHandler cfg method req = CSRFResult.forward ↔
      (isValidToken (req.cookies cfg.cookieName) = true
        ∧ isValidToken (clientSuppliedToken cfg req) = true
        ∧ req.cookies cfg.cookieName = clientSuppliedToken cfg req))
    ∧ (csrfHandler cfg method req = CSRFResult.forward
        ∨ csrfHandler cfg method req = CSRFResult.reject 403 "CSRF token mismatch")
    ∧ (cfg.tokenLookup = "header:" ++ cfg.headerName →
        clientSuppliedToken cfg req = req.headers cfg.headerName)
    ∧ (cfg.tokenLookup ≠ "header:" ++ cfg.headerName →
        clientSuppliedToken cfg req = req.formValues "_token") := by
  refine ⟨?_, ?_, ?_, ?_⟩
  · simp only [csrfHandler, h, Bool.false_eq_true, if_false]
    by_cases hv : validateCSRFToken cfg req
    · rw [if_pos hv]
      exact iff_of_true rfl ((validateTokenPair_eq_true_iff _ _).mp hv)
    · rw [if_neg hv]
      constructor
      · intro hc
        exact absurd hc (by simp)
      · intro hc
        exact absurd ((validateTokenPair_eq_true_iff _ _).mpr hc) hv
  · by_cases hv : validateCSRFToken cfg req
    · left
      simp [csrfHandler, h, hv]
    · right
      simp [csrfHandler, h, hv]
  · intro hl
    unfold clientSuppliedToken
    rw [if_pos hl]
  · intro hl
    unfold clientSuppliedToken
    rw [if_neg hl]

/-- Well-formed demonstration token: 43 bytes `A` then `=`, the base64url
encoding of 32 zero bytes. -/
def demoToken : Bytes := List.replicate 43 65 ++ [61]

/-- Demonstration request carrying `demoToken` in both the CSRF cookie and the
configured header. -/
def demoCSRFRequest : CSRFRequest :=
  { cookies := fun n => if n = "csrf_token" then demoToken else []
    headers := fun n => if n = "X-CSRF-Token" then demoToken else []
    formValues := fun _ => [] }

/-- Witness for C1: a POST carrying the same well-formed token in cookie and
header is forwarded. -/
theorem csrf_unsafe_request_validation_witness :
    csrfHandler defaultCSRFConfig "POST" demoCSRFRequest = CSRFResult.forward :=
  (csrf_unsafe_request_validation defaultCSRFConfig "POST" demoCSRFRequest
      (by decide)).1.mpr ⟨by decide, by decide, by decide⟩

/-- C6: validation is symmetric in the two tokens, and a token that validates
against an identical copy of itself stops validating when a single byte of
either copy is replaced by a different byte. -/
theorem csrf_validation_symmetric_byte_sensitive :
    (∀ a b : Bytes, validateTokenPair a b = validateTokenPair b a)
    ∧ (∀ pre suf : Bytes, ∀ b c : Nat, c ≠ b →
        validateTokenPair (pre ++ b :: suf) (pre ++ b :: suf) = true →
        validateTokenPair (pre ++ c :: suf) (pre ++ b :: suf) = false
          ∧ validateTokenPair (pre ++ b :: suf) (pre ++ c :: suf) = false) := by
  have hsym : ∀ a b : Bytes, validateTokenPair a b = validateTokenPair b a := by
    intro a b
    rw [Bool.eq_iff_iff, validateTokenPair_eq_true_iff, validateTokenPair_eq_true_iff]
    constructor
    · rintro ⟨h1, h2, h3⟩
      exact ⟨h2, h1, h3.symm⟩
    · rintro ⟨h1, h2, h3⟩
      exact ⟨h2, h1, h3.symm⟩
  refine ⟨hsym, ?_⟩
  intro pre suf b c hne _hval
  have hneq : pre ++ c :: suf ≠ pre ++ b :: suf := by
    intro he
    have h2 := List.append_cancel_left he
    injection h2 with h3 _
    exact hne h3
  constructor
  · cases hcase : validateTokenPair (pre ++ c :: suf) (pre ++ b :: suf) with
    | false => rfl
    | true =>
      have h4 := (validateTokenPair_eq_true_iff _ _).mp hcase
      exact absurd h4.2.2 hneq
  · cases hcase : validateTokenPair (pre ++ b :: suf) (pre ++ c :: suf) with
    | false => rfl
    | true =>
      have h4 := (validateTokenPair_eq_true_iff _ _).mp hcase
      exact absurd h4.2.2.symm hneq

/-- Witness for C6: flipping the first byte of the demonstration token from
`A` to `B` makes validation against the original reject. -/
theorem csrf_validation_symmetric_byte_sensitive_witness :
    validateTokenPair ([] ++ 66 :: (List.replicate 42 65 ++ [61]))
      ([] ++ 65 :: (List.replicate 42 65 ++ [61])) = false :=
  (csrf_validation_symmetric_byte_sensitive.2 [] (List.replicate 42 65 ++ [61]) 65 66
    (by decide) (by decide)).1

/-! ## Claims about the session store and authentication middleware -/

/-- Removing an id from the session map makes its lookup fail. -/
theorem lookupSession_removeSession (m : SessionMap) (id : String) :
    lookupSession (removeSession m id) id = none := by
  induction m with
  | nil => rfl
  | cons e rest ih =>
    obtain ⟨k, s⟩ := e
    by_cases h : k = id
    · simpa [removeSession, List.filter_cons, h] using ih
    · have hb : (k == id) = false := beq_eq_false_iff_ne.mpr h
      simp only [removeSession, List.filter_cons, hb, Bool.not_false, if_pos]
      simp only [lookupSession, if_neg h]
      exact ih

/-- Demonstration session expiring at instant 5. -/
def demoSession : Session := ⟨"sid", "user1", 0, 5, []⟩

/-- Demonstration store holding exactly `demoSession`. -/
def demoStore : SessionMap := [("sid", demoSession)]

/-- C2 counterexample: at the exact expiry instant (`now = expiresAt`, so
`now ≥ expiresAt`) `GetSession` still returns the session and leaves the
store untouched, because the code expires strictly (`time.Now().After`). -/
theorem getSession_at_expiry_instant :
    demoSession.expiresAt ≤ 5
      ∧ (getSession demoStore 5 "sid").1 = some demoSession
      ∧ (getSession demoStore 5 "sid").2 = demoStore := by decide

/-- C2 (amended): a stored session is returned while `now ≤ expiresAt`; once
`now > expiresAt` the lookup reports absent and removes the entry, so a
second lookup also finds nothing — lazy expiry, independent of the sweep. -/
theorem getSession_lazy_expiry (m : SessionMap) (id : String) (s : Session)
    (now : Nat) (h : lookupSession m id = some s) :
    (now ≤ s.expiresAt → getSession m now id = (some s, m))
    ∧ (s.expiresAt < now →
        (getSession m now id).1 = none
          ∧ lookupSession (getSession m now id).2 id = none
          ∧ (getSession (getSession m now id).2 now id).1 = none) := by
  constructor
  · intro hle
    simp only [getSession, h]
    rw [if_neg (by omega)]
  · intro hlt
    have h1 : getSession m now id = (none, removeSession m id) := by
      simp only [getSession, h]
      rw [if_pos hlt]
    refine ⟨by rw [h1], ?_, ?_⟩
    · rw [h1]
      exact lookupSession_removeSession m id
    · rw [h1]
      show (getSession (removeSession m id) now id).1 = none
      unfold getSession
      rw [lookupSession_removeSession]

/-- Witness for C2 (amended): lookups before and after expiry of the
demonstration session. -/
theorem getSession_lazy_expiry_witness :
    getSession demoStore 3 "sid" = (some demoSession, demoStore)
      ∧ (getSession demoStore 9 "sid").1 = none :=
  ⟨(getSession_lazy_expiry demoStore "sid" demoSession 3 (by decide)).1 (by decide),
    ((getSession_lazy_expiry demoStore "sid" demoSession 9 (by decide)).2 (by decide)).1⟩

/-- C8: required-authentication mode.  An empty cookie is rejected 401 with
the store untouched whatever it holds (no lookup); a cookie whose store
lookup fails is rejected 401 with the invalid-session message; a valid
session is forwarded with the session, its user id and the flag attached. -/
theorem requireAuth_modes (m : SessionMap) (now : Nat) :
    (requireAuth m now "" = (AuthOutcome.reject 401 "Authentication required", m))
    ∧ (∀ cv, cv ≠ "" → (getSession m now cv).1 = none →
        (requireAuth m now cv).1 = AuthOutcome.reject 401 "Invalid or expired session")
    ∧ (∀ cv s, cv ≠ "" → (getSession m now cv).1 = some s →
        (requireAuth m now cv).1 = AuthOutcome.proceed s s.userID true) := by
  refine ⟨rfl, ?_, ?_⟩
  · intro cv hcv hnone
    simp [requireAuth, hcv, hnone]
  · intro cv s hcv hsome
    simp [requireAuth, hcv, hsome]

/-- Witness for C8: the demonstration session authenticates before expiry. -/
theorem requireAuth_modes_witness :
    (requireAuth demoStore 3 "sid").1 = AuthOutcome.proceed demoSession "user1" true :=
  (requireAuth_modes demoStore 3).2.2 "sid" demoSession (by decide) (by decide)

/-- C9 (bug evidence): on the expired path `GetSession` performs the map
delete while only the read lock is held and never acquires the write lock,
contradicting the claimed escalation to a write lock before the delete. -/
theorem getSession_delete_under_read_lock :
    getSessionLockTrace demoStore 10 "sid"
        = [LockEvent.rlock, LockEvent.mapDelete, LockEvent.runlock]
      ∧ deleteWithoutWriteLock (getSessionLockTrace demoStore 10 "sid") 0 0 = true
      ∧ (getSessionLockTrace demoStore 10 "sid").contains LockEvent.wlock = false
      ∧ (getSession demoStore 10 "sid").1 = none := by decide

/-! ## Claims about the rate limiter -/

/-- Within one minute of the last refill `Allow` adds nothing and leaves
`lastRefill` alone: it just consumes a token when one is available. -/
theorem allow_no_refill (rl : RateLimiter) (now : Nat)
    (h : now < rl.lastRefill + nsPerMinute) :
    rl.allow now =
      if 0 < rl.tokens then (true, { rl with tokens := rl.tokens - 1 })
      else (false, rl) := by
  have hns : 0 < nsPerMinute := by norm_num [nsPerMinute]
  have he : (now - rl.lastRefill) / nsPerMinute = 0 := by
    apply Nat.div_eq_of_lt
    omega
  simp [RateLimiter.allow, refillAmount, he]

/-- While enough tokens remain and no refill is due, every call succeeds and
each consumes exactly one token. -/
theorem allowSeq_no_refill_drain (times : List Nat) :
    ∀ rl : RateLimiter, (∀ t ∈ times, t < rl.lastRefill + nsPerMinute) →
      (times.length : Int) ≤ rl.tokens →
      allowSeq rl times
        = (List.replicate times.length true,
            { rl with tokens := rl.tokens - times.length }) := by
  induction times with
  | nil =>
    intro rl _ _
    simp [allowSeq]
  | cons t ts ih =>
    intro rl hall hle
    have hnn : (0 : Int) ≤ (ts.length : Int) := Int.natCast_nonneg ts.length
    have hle' : (ts.length : Int) + 1 ≤ rl.tokens := by
      simp only [List.length_cons] at hle
      push_cast at hle
      omega
    have hpos : 0 < rl.tokens := by omega
    have hstep : rl.allow t = (true, { rl with tokens := rl.tokens - 1 }) := by
      rw [allow_no_refill rl t (hall t (List.mem_cons_self t ts))]
      rw [if_pos hpos]
    have hrest : allowSeq { rl with tokens := rl.tokens - 1 } ts
        = (List.replicate ts.length true,
            { rl with tokens := rl.tokens - 1 - (ts.length : Int) }) :=
      ih { rl with tokens := rl.tokens - 1 }
        (fun x hx => hall x (List.mem_cons_of_mem t hx))
        (show (ts.length : Int) ≤ rl.tokens - 1 by omega)
    have harith : rl.tokens - 1 - (ts.length : Int)
        = rl.tokens - (((t :: ts).length : Nat) : Int) := by
      simp only [List.length_cons]
      push_cast
      ring
    show ((rl.allow t).1 :: (allowSeq (rl.allow t).2 ts).1, (allowSeq (rl.allow t).2 ts).2)
        = (List.replicate (t :: ts).length true,
            { rl with tokens := rl.tokens - (((t :: ts).length : Nat) : Int) })
    rw [hstep]
    show (true :: (allowSeq { rl with tokens := rl.tokens - 1 } ts).1,
          (allowSeq { rl with tokens := rl.tokens - 1 } ts).2)
        = (List.replicate (t :: ts).length true,
            { rl with tokens := rl.tokens - (((t :: ts).length : Nat) : Int) })
    rw [hrest]
    show (true :: List.replicate ts.length true,
          { rl with tokens := rl.tokens - 1 - (ts.length : Int) })
        = (List.replicate (t :: ts).length true,
            { rl with tokens := rl.tokens - (((t :: ts).length : Nat) : Int) })
    rw [harith]
    simp [List.length_cons, List.replicate_succ]

/-- With zero tokens and no refill due, every call fails and the state is
left unchanged. -/
theorem allowSeq_no_refill_exhausted (times : List Nat) :
    ∀ rl : RateLimiter, (∀ t ∈ times, t < rl.lastRefill + nsPerMinute) →
      rl.tokens = 0 →
      allowSeq rl times = (List.replicate times.length false, rl) := by
  induction times with
  | nil =>
    intro rl _ _
    simp [allowSeq]
  | cons t ts ih =>
    intro rl hall h0
    have hstep : rl.allow t = (false, rl) := by
      rw [allow_no_refill rl t (hall t (List.mem_cons_self t ts))]
      rw [if_neg (by omega)]
    show ((rl.allow t).1 :: (allowSeq (rl.allow t).2 ts).1, (allowSeq (rl.allow t).2 ts).2)
        = (List.replicate (t :: ts).length false, rl)
    rw [hstep]
    show (false :: (allowSeq rl ts).1, (allowSeq rl ts).2)
        = (List.replicate (t :: ts).length false, rl)
    rw [ih rl (fun x hx => hall x (List.mem_cons_of_mem t hx)) h0]
    simp [List.length_cons, List.replicate_succ]

/-- Running a call sequence splits along list concatenation. -/
theorem allowSeq_append (xs ys : List Nat) :
    ∀ rl : RateLimiter,
      allowSeq rl (xs ++ ys)
        = ((allowSeq rl xs).1 ++ (allowSeq (allowSeq rl xs).2 ys).1,
            (allowSeq (allowSeq rl xs).2 ys).2) := by
  induction xs with
  | nil =>
    intro rl
    rfl
  | cons x xs2 ih =>
    intro rl
    show ((rl.allow x).1 :: (allowSeq (rl.allow x).2 (xs2 ++ ys)).1,
          (allowSeq (rl.allow x).2 (xs2 ++ ys)).2) = _
    rw [ih (rl.allow x).2]
    rfl

/-- C3: a freshly created bucket with capacity at least 1 answers exactly
`cap` `Allow` calls inside one refill-free window with true, the following
call with false, and ends with zero tokens (so the failing call consumed
nothing). -/
theorem rateLimiter_window_exhaustion (cap t0 w : Nat) (key : String)
    (times : List Nat) (hcap : 1 ≤ cap) (hlen : times.length = cap + 1)
    (hwin : ∀ t ∈ times, t < t0 + nsPerMinute) :
    (allowSeq (getRateLimiter ⟨[], (cap : Int), w⟩ key t0).1 times).1
        = List.replicate cap true ++ [false]
    ∧ (allowSeq (getRateLimiter ⟨[], (cap : Int), w⟩ key t0).1 times).2.tokens = 0 := by
  have htake : (times.take cap).length = cap := by
    rw [List.length_take, hlen]
    omega
  have hdrop : (times.drop cap).length = 1 := by
    rw [List.length_drop, hlen]
    omega
  have hdrain : allowSeq (⟨(cap : Int), (cap : Int), (cap : Int), t0⟩ : RateLimiter)
      (times.take cap)
      = (List.replicate (times.take cap).length true,
          ⟨(cap : Int) - (times.take cap).length, (cap : Int), (cap : Int), t0⟩) :=
    allowSeq_no_refill_drain (times.take cap) ⟨(cap : Int), (cap : Int), (cap : Int), t0⟩
      (fun x hx => hwin x (List.take_subset cap times hx))
      (by rw [htake])
  have hzero : ((cap : Int) - ((times.take cap).length : Int)) = 0 := by
    rw [htake]
    omega
  have hexh : allowSeq (⟨(cap : Int) - (times.take cap).length, (cap : Int), (cap : Int), t0⟩ :
        RateLimiter) (times.drop cap)
      = (List.replicate (times.drop cap).length false,
          ⟨(cap : Int) - (times.take cap).length, (cap : Int), (cap : Int), t0⟩) :=
    allowSeq_no_refill_exhausted (times.drop cap) _
      (fun x hx => hwin x (List.drop_subset cap times hx)) hzero
  have hApp := allowSeq_append (times.take cap) (times.drop cap)
      (⟨(cap : Int), (cap : Int), (cap : Int), t0⟩ : RateLimiter)
  rw [List.take_append_drop] at hApp
  have hfresh : (getRateLimiter ⟨[], (cap : Int), w⟩ key t0).1
      = ⟨(cap : Int), (cap : Int), (cap : Int), t0⟩ := rfl
  rw [hfresh, hApp]
  simp only [hdrain]
  simp only [hexh]
  constructor
  · rw [htake, hdrop]
    simp [List.replicate_one]
  · exact hzero

/-- Witness for C3: a capacity-2 bucket allows twice then refuses, ending
empty. -/
theorem rateLimiter_window_exhaustion_witness :
    (allowSeq (getRateLimiter ⟨[], ((2 : Nat) : Int), 60000000000⟩ "client" 0).1 [1, 2, 3]).1
        = List.replicate 2 true ++ [false]
    ∧ (allowSeq (getRateLimiter ⟨[], ((2 : Nat) : Int), 60000000000⟩ "client" 0).1
        [1, 2, 3]).2.tokens = 0 :=
  rateLimiter_window_exhaustion 2 0 60000000000 "client" [1, 2, 3]
    (by decide) (by decide) (by decide)

/-- Bucket invariant for C4: token count within bounds, capacity recorded,
non-negative refill rate. -/
def RLInv (cap : Int) (rl : RateLimiter) : Prop :=
  0 ≤ rl.tokens ∧ rl.tokens ≤ cap ∧ rl.maxTokens = cap ∧ 0 ≤ rl.refillRate

/-- One `Allow` call preserves the bucket invariant. -/
theorem allow_preserves_inv {cap : Int} {rl : RateLimiter} (h : RLInv cap rl)
    (now : Nat) : RLInv cap (rl.allow now).2 := by
  obtain ⟨h0, h1, h2, h3⟩ := h
  have hcap : 0 ≤ cap := le_trans h0 h1
  have hXnn : 0 ≤ refillAmount rl now := mul_nonneg (Int.natCast_nonneg _) h3
  simp only [RateLimiter.allow, RLInv]
  split_ifs with hA htk htk2 <;>
    refine ⟨?_, ?_, ?_, ?_⟩ <;> simp_all <;> try omega

/-- The invariant holds after any call sequence. -/
theorem allowSeq_preserves_inv {cap : Int} (times : List Nat) :
    ∀ rl : RateLimiter, RLInv cap rl → RLInv cap (allowSeq rl times).2 := by
  induction times with
  | nil =>
    intro rl h
    exact h
  | cons t ts ih =>
    intro rl h
    exact ih (rl.allow t).2 (allow_preserves_inv h t)

/-- C4: a bucket created by `getRateLimiter` starts full
(`tokens = maxTokens = cap`) and after any sequence of `Allow` calls its
token count stays within `[0, cap]`. -/
theorem rateLimiter_token_bounds (cap : Int) (t0 w : Nat) (key : String)
    (times : List Nat) (hcap : 0 ≤ cap) :
    (getRateLimiter ⟨[], cap, w⟩ key t0).1.tokens = cap
    ∧ (getRateLimiter ⟨[], cap, w⟩ key t0).1.maxTokens = cap
    ∧ 0 ≤ (allowSeq (getRateLimiter ⟨[], cap, w⟩ key t0).1 times).2.tokens
    ∧ (allowSeq (getRateLimiter ⟨[], cap, w⟩ key t0).1 times).2.tokens ≤ cap := by
  have hinv0 : RLInv cap (getRateLimiter ⟨[], cap, w⟩ key t0).1 :=
    ⟨hcap, le_refl cap, rfl, hcap⟩
  have hfin := allowSeq_preserves_inv times (getRateLimiter ⟨[], cap, w⟩ key t0).1 hinv0
  exact ⟨rfl, rfl, hfin.1, hfin.2.1⟩

/-- Witness for C4: bounds hold for a capacity-3 bucket over a call sequence
that crosses a refill boundary. -/
theorem rateLimiter_token_bounds_witness :
    0 ≤ (allowSeq (getRateLimiter ⟨[], 3, 60000000000⟩ "client" 0).1
        [0, 100000000000]).2.tokens
    ∧ (allowSeq (getRateLimiter ⟨[], 3, 60000000000⟩ "client" 0).1
        [0, 100000000000]).2.tokens ≤ 3 :=
  ⟨(rateLimiter_token_bounds 3 0 60000000000 "client" [0, 100000000000] (by decide)).2.2.1,
    (rateLimiter_token_bounds 3 0 60000000000 "client" [0, 100000000000] (by decide)).2.2.2⟩

/-- C7: the refill step adds `floor(elapsed minutes) * refillRate` tokens
capped at capacity; under one whole minute nothing is added and `lastRefill`
is not advanced; `lastRefill` moves to `now` only for a positive amount. -/
theorem rateLimiter_refill_quantized (rl : RateLimiter) (now : Nat) :
    (now - rl.lastRefill < nsPerMinute → refillAmount rl now = 0)
    ∧ (refillAmount rl now ≤ 0 →
        (rl.allow now).2.lastRefill = rl.lastRefill
          ∧ (rl.allow now).2.tokens
              = (if 0 < rl.tokens then rl.tokens - 1 else rl.tokens))
    ∧ (0 < refillAmount rl now →
        (rl.allow now).2.lastRefill = now
          ∧ (rl.allow now).2.tokens
              = (if 0 < min rl.maxTokens (rl.tokens + refillAmount rl now)
                  then min rl.maxTokens (rl.tokens + refillAmount rl now) - 1
                  else min rl.maxTokens (rl.tokens + refillAmount rl now))) := by
  refine ⟨?_, ?_, ?_⟩
  · intro h
    unfold refillAmount
    rw [Nat.div_eq_of_lt h]
    simp
  · intro h
    have hnot : ¬ 0 < refillAmount rl now := by omega
    simp only [RateLimiter.allow]
    rw [if_neg hnot]
    by_cases htk : 0 < rl.tokens <;> simp [htk]
  · intro hpos
    simp only [RateLimiter.allow]
    rw [if_pos hpos]
    by_cases htk : 0 < min rl.maxTokens (rl.tokens + refillAmount rl now) <;> simp [htk]

/-- Witness for C7: half a minute after the last refill, the amount is zero
and `lastRefill` stays put. -/
theorem rateLimiter_refill_quantized_witness :
    refillAmount (⟨5, 10, 10, 0⟩ : RateLimiter) 30000000000 = 0
      ∧ ((⟨5, 10, 10, 0⟩ : RateLimiter).allow 30000000000).2.lastRefill = 0 :=
  ⟨(rateLimiter_refill_quantized ⟨5, 10, 10, 0⟩ 30000000000).1 (by decide),
    ((rateLimiter_refill_quantized ⟨5, 10, 10, 0⟩ 30000000000).2.1 (by decide)).1⟩

/-! ## Claims about the CORS middleware -/

/-- C5: with credentials allowed, the allow-origin header can only ever hold
the requesting origin itself — never a wildcard standing for a different
origin: an allowed non-empty origin is echoed verbatim and the request
forwarded, while a disallowed non-empty origin gets no allow-origin value and
a 403 rejection on both the actual-request and preflight paths. -/
theorem cors_credentials_echo_exact_origin (cfg : CORSConfig) (origin : GoStr)
    (hcred : cfg.allowCredentials = true) (hne : origin ≠ []) :
    (∀ v, setAllowOriginHeader cfg origin = some v → v = origin)
    ∧ (isOriginAllowed cfg origin = true →
        setAllowOriginHeader cfg origin = some origin
          ∧ handleActualRequest cfg origin = CORSResult.forward (some origin)
          ∧ handlePreflight cfg origin = CORSResult.preflightOk (some origin))
    ∧ (isOriginAllowed cfg origin = false →
        setAllowOriginHeader cfg origin = none
          ∧ handleActualRequest cfg origin = CORSResult.reject 403 none
          ∧ handlePreflight cfg origin = CORSResult.reject 403 none) := by
  have hbne : (origin != []) = true := bne_iff_ne.mpr hne
  refine ⟨?_, ?_, ?_⟩
  · intro v hv
    by_cases hall : isOriginAllowed cfg origin
    · simp only [setAllowOriginHeader, hcred, if_pos rfl, hbne, hall, Bool.and_self,
        if_pos] at hv
      exact (Option.some.injEq _ _ ▸ hv).symm
    · simp only [setAllowOriginHeader, hcred, if_pos rfl, hbne,
        Bool.eq_false_iff.mpr hall] at hv
      simp at hv
  · intro hall
    refine ⟨?_, ?_, ?_⟩
    · simp [setAllowOriginHeader, hcred, hbne, hall]
    · simp [handleActualRequest, hbne, hall, setAllowOriginHeader, hcred]
    · simp [handlePreflight, hall, setAllowOriginHeader, hcred, hbne]
  · intro hall
    refine ⟨?_, ?_, ?_⟩
    · simp [setAllowOriginHeader, hcred, hbne, hall]
    · simp [handleActualRequest, hbne, hall]
    · simp [handlePreflight, hall]

/-- Demonstration CORS configuration allowing one exact origin, with
credentials. -/
def demoCORSConfig : CORSConfig :=
  { allowOrigins := [String.data "https://app.example.com"]
    allowCredentials := true }

/-- Witness for C5: the allowed origin is echoed verbatim and forwarded. -/
theorem cors_credentials_echo_exact_origin_witness :
    setAllowOriginHeader demoCORSConfig (String.data "https://app.example.com")
        = some (String.data "https://app.example.com")
      ∧ handleActualRequest demoCORSConfig (String.data "https://app.example.com")
        = CORSResult.forward (some (String.data "https://app.example.com")) :=
  ⟨((cors_credentials_echo_exact_origin demoCORSConfig
      (String.data "https://app.example.com") (by decide) (by decide)).2.1 (by decide)).1,
    ((cors_credentials_echo_exact_origin demoCORSConfig
      (String.data "https://app.example.com") (by decide) (by decide)).2.1 (by decide)).2.1⟩

/-- C10: the wildcard entry check is a plain suffix match with no dot-boundary
requirement — any configured entry `*.D` accepts every non-empty origin whose
characters end with `D` — and an empty Origin header is always allowed. -/
theorem cors_wildcard_plain_suffix (cfg : CORSConfig) (d origin : GoStr)
    (hmem : ('*' :: '.' :: d) ∈ cfg.allowOrigins) (hne : origin ≠ [])
    (hsuf : List.isSuffixOf d origin = true) :
    isOriginAllowed cfg origin = true
      ∧ (∀ cfg2 : CORSConfig, isOriginAllowed cfg2 [] = true) := by
  constructor
  · unfold isOriginAllowed
    rw [if_neg hne]
    rw [List.any_eq_true]
    refine ⟨'*' :: '.' :: d, hmem, ?_⟩
    have hpre : List.isPrefixOf ['*', '.'] ('*' :: '.' :: d) = true := by
      simp [List.isPrefixOf]
    have hdrop : ('*' :: '.' :: d).drop 2 = d := rfl
    rw [hdrop]
    simp [hpre, hsuf]
  · intro cfg2
    rfl

/-- Witness for C10: with `*.example.com` configured, the foreign origin
`https://evilexample.com` — not a subdomain of `example.com` — is accepted. -/
theorem cors_wildcard_plain_suffix_witness :
    isOriginAllowed ⟨[String.data "*.example.com"], false⟩
        (String.data "https://evilexample.com") = true :=
  (cors_wildcard_plain_suffix ⟨[String.data "*.example.com"], false⟩
    (String.data "example.com") (String.data "https://evilexample.com")
    (by decide) (by decide) (by decide)).1

end Parallax
